import Mathlib

/-!
# Verification of the birdops alert pipeline

Shallow embedding of `src/birdops.py`: a run-once bird-sighting alert
script (fetch → filter → dedupe → notify → persist).  Network and file
I/O are modelled as explicit inputs/outputs: the per-site fetch result is
an `Except` value handed to the run, the seen-set backing store is a
`StoreState`, and each notification sink records the posted payloads in
lists.  Python strings are Lean `String`s; Python `set` is `Finset String`;
JSON scalar fields that may be absent or null are `Option String`
(holding the string rendering Python's f-string would produce for the
value, with `none` rendering as `"None"`).
-/

/-- Python `str.lower()`: character-wise lowercasing of the string. -/
def lower (s : String) : String := ⟨s.data.map Char.toLower⟩

/-- Python f-string rendering of a possibly-missing field:
`None` renders as the string `"None"`, a string renders as itself. -/
def pyStr : Option String → String
  | none => "None"
  | some s => s

/-- `listStarts w s` is true iff the list `s` starts with `w`
(helper for Python's substring test `w in name`). -/
def listStarts : List Char → List Char → Bool
  | [], _ => true
  | _ :: _, [] => false
  | a :: w, b :: s => a == b && listStarts w s

/-- `listHas w s` is true iff `w` occurs contiguously inside `s`. -/
def listHas (w : List Char) : List Char → Bool
  | [] => listStarts w []
  | c :: rest => listStarts w (c :: rest) || listHas w rest

/-- Python's substring containment test `w in s` on strings. -/
def pyIn (w s : String) : Bool := listHas w.data s.data

/-- `birdops.py` line 8: flag that sends "No new sightings" when no new
species were sighted. -/
def SEND_NO_NEWS_MESSAGE : Bool := true

/-- `birdops.py` line 9. -/
def NO_NEWS_TEXT : String := "No new sightings"

/-- Python `str.split("|")` on the underlying character list: cut at
every `'|'`; the empty string yields the single group `[""]`. -/
def splitPipe : List Char → List (List Char)
  | [] => [[]]
  | c :: rest =>
    if c = '|' then [] :: splitPipe rest
    else
      match splitPipe rest with
      | [] => [[c]]
      | g :: gs => (c :: g) :: gs

/-- Python `str.strip()`: drop leading and trailing whitespace. -/
def pyStrip (s : String) : String :=
  ⟨((s.data.dropWhile Char.isWhitespace).reverse.dropWhile
      Char.isWhitespace).reverse⟩

/-- `birdops.py` line 23: parse the raw pipe-delimited `WATCHLIST`
environment string: split on `"|"`, keep entries whose strip is
non-empty, strip and lowercase each kept entry. -/
def parseWatchlist (raw : String) : List String :=
  (((splitPipe raw.data).map (fun l => String.mk l)).filter
      (fun w => pyStrip w != "")).map (fun w => lower (pyStrip w))

/-- One observation record returned by the eBird API.  Every field the
script reads via `o.get(...)`; fields are `Option String` since a key may
be absent (or null) in the JSON object.  `lat`/`lng` hold the string
rendering of the numeric coordinates. -/
structure Obs where
  comName : Option String
  speciesCode : Option String
  sciName : Option String
  locName : Option String
  obsDt : Option String
  lat : Option String
  lng : Option String
deriving DecidableEq

/-- A monitored site (`birdops.py` lines 29-31).  The coordinates and
radius only feed the fetch call, which is modelled as input data, so the
embedding keeps the fields the dedupe/notify logic reads. -/
structure Site where
  id : String
  name : String
deriving DecidableEq

/-- `match_watchlist` (`birdops.py` lines 44-49): common-name substring
match or exact species-code match against the watchlist; an empty
watchlist matches nothing.  The global `WATCHLIST` is passed explicitly. -/
def match_watchlist (wl : List String) (o : Obs) : Bool :=
  let name := lower (o.comName.getD "")
  let code := lower (o.speciesCode.getD "")
  let by_name := match wl with
    | [] => false
    | _ => wl.any (fun w => pyIn w name)
  let by_code := match wl with
    | [] => false
    | _ => wl.any (fun w => w == code)
  by_name || by_code

/-- `obs_key` (`birdops.py` lines 106-108): the composite identity key
`f"{site_id}|{speciesCode}|{obsDt}|{lat}|{lng}"`. -/
def obs_key (site_id : String) (o : Obs) : String :=
  site_id ++ "|" ++ pyStr o.speciesCode ++ "|" ++ pyStr o.obsDt ++ "|"
    ++ pyStr o.lat ++ "|" ++ pyStr o.lng

/-- A string is pipe-free when it does not contain the key separator
`'|'`. -/
def pipeFree (s : String) : Prop := '|' ∉ s.data

instance (s : String) : Decidable (pipeFree s) := by
  unfold pipeFree
  infer_instance

/-- The state of the seen-set backing store (`seen.json`) as `load_seen`
finds it: missing file, unreadable file, malformed contents, or a
well-formed JSON array of key strings. -/
inductive StoreState where
  | missing : StoreState
  | unreadable : StoreState
  | malformed : StoreState
  | wellFormed : List String → StoreState

/-- `load_seen` (`birdops.py` lines 87-93): read `seen.json` into a set;
any failure (missing, unreadable, malformed) yields the empty set. -/
def load_seen : StoreState → Finset String
  | .wellFormed keys => keys.toFinset
  | _ => (∅ : Finset String)

/-- `save_seen` (`birdops.py` lines 95-104): the JSON array written back,
namely `sorted(seen)` truncated to its last 5000 entries (`data[-5000:]`)
when it is longer than 5000. -/
def save_seen (seen : Finset String) : List String :=
  let data := seen.sort (· ≤ ·)
  if 5000 < data.length then data.drop (data.length - 5000) else data

/-- The row posted to the spreadsheet webhook for one new match
(`birdops.py` lines 141-147), minus the wall-clock `ts` field. -/
structure Row where
  siteId : String
  siteName : String
  comName : Option String
  sciName : Option String
  locName : Option String
  obsDt : Option String
  lat : Option String
  lng : Option String
deriving DecidableEq

/-- The Slack alert text for one new match (`birdops.py` line 132). -/
def alertText (siteName : String) (o : Obs) : String :=
  ":bird: *" ++ pyStr o.comName ++ "* near *" ++ siteName ++ "* — "
    ++ o.locName.getD "Unknown" ++ " (obs " ++ pyStr o.obsDt ++ ")"

/-- The spreadsheet row for one new match (`birdops.py` lines 141-147). -/
def mkRow (site : Site) (o : Obs) : Row :=
  { siteId := site.id, siteName := site.name, comName := o.comName,
    sciName := o.sciName, locName := o.locName, obsDt := o.obsDt,
    lat := o.lat, lng := o.lng }

/-- The mutable state of one `run_once` execution: the in-memory seen
set, the new-alert counter, and the outputs so far of each notification
sink (keys notified, chat texts posted, rows posted). -/
structure RunState where
  seen : Finset String
  totalNew : Nat
  notified : List String
  chat : List String
  rows : List Row
deriving DecidableEq

/-- The body of the per-match loop (`birdops.py` lines 126-153): skip the
observation when its key is already seen, otherwise post the chat alert,
post the row, mark the key seen and bump the counter. -/
def notifyObs (site : Site) (st : RunState) (o : Obs) : RunState :=
  let key := obs_key site.id o
  if key ∈ st.seen then st
  else
    { seen := insert key st.seen,
      totalNew := st.totalNew + 1,
      notified := st.notified ++ [key],
      chat := st.chat ++ [alertText site.name o],
      rows := st.rows ++ [mkRow site o] }

/-- One iteration of the site loop (`birdops.py` lines 116-153): a failed
fetch is logged and skipped (`continue`); a successful fetch is filtered
against the watchlist, capped at 50 matches, and each match is run
through the per-match loop. -/
def processSite (wl : List String) (st : RunState)
    (entry : Site × Except Unit (List Obs)) : RunState :=
  match entry.2 with
  | .error _ => st
  | .ok obs =>
      ((obs.filter (fun o => match_watchlist wl o)).take 50).foldl
        (notifyObs entry.1) st

/-- The full site loop of `run_once`, folded over the fetched data. -/
def runCore (wl : List String) (fetched : List (Site × Except Unit (List Obs)))
    (st : RunState) : RunState :=
  fetched.foldl (processSite wl) st

/-- The state at the top of `run_once` (lines 112-113): counter zero,
seen set as loaded, no sink output yet. -/
def initState (seen₀ : Finset String) : RunState :=
  { seen := seen₀, totalNew := 0, notified := [], chat := [], rows := [] }

/-- The observable outcome of one `run_once` execution. -/
structure RunResult where
  totalNew : Nat
  notified : List String
  chat : List String
  rows : List Row
  savedSeen : List String
  finalSeen : Finset String
deriving DecidableEq

/-- `run_once` (`birdops.py` lines 111-164) given the fetch outcomes and
the loaded seen set: run the site loop, save the seen set, and post the
no-news message when the counter is zero and the flag is on. -/
def run_once (wl : List String) (fetched : List (Site × Except Unit (List Obs)))
    (seen₀ : Finset String) : RunResult :=
  let st := runCore wl fetched (initState seen₀)
  let chat := if st.totalNew == 0 && SEND_NO_NEWS_MESSAGE
    then st.chat ++ [NO_NEWS_TEXT] else st.chat
  { totalNew := st.totalNew, notified := st.notified, chat := chat,
    rows := st.rows, savedSeen := save_seen st.seen, finalSeen := st.seen }

/-- The keys of every observation the run's per-match loop examines, in
order: for each successfully fetched site, the keys of the first 50
watchlist matches. -/
def processedKeys (wl : List String)
    (fetched : List (Site × Except Unit (List Obs))) : List String :=
  fetched.flatMap (fun e =>
    match e.2 with
    | .error _ => []
    | .ok obs =>
        ((obs.filter (fun o => match_watchlist wl o)).take 50).map
          (obs_key e.1.id))

/-- Whether a site's fetch succeeded. -/
def fetchOk (e : Site × Except Unit (List Obs)) : Bool :=
  match e.2 with
  | .ok _ => true
  | .error _ => false

/-- How one run-state evolves into another along the per-match loop: the
notified keys grow by a block Δ of fresh, pairwise-distinct keys, the
seen set absorbs exactly Δ, and the counter and each sink output grow in
lockstep with Δ. -/
def Steps (st st' : RunState) : Prop :=
  ∃ Δ : List String, ∃ c : List String, ∃ r : List Row,
    st'.notified = st.notified ++ Δ ∧
    Δ.Nodup ∧
    (∀ k ∈ Δ, k ∉ st.seen) ∧
    st'.seen = st.seen ∪ Δ.toFinset ∧
    st'.totalNew = st.totalNew + Δ.length ∧
    st'.chat = st.chat ++ c ∧ c.length = Δ.length ∧
    st'.rows = st.rows ++ r ∧ r.length = Δ.length

/-- The `i`-th all-`z` key: `i + 1` copies of `'z'`.  These are pairwise
distinct strings used to build large concrete seen sets. -/
def zkey (i : Nat) : String := ⟨List.replicate (i + 1) 'z'⟩

/-- `n` pairwise-distinct all-`z` keys. -/
def zList (n : Nat) : List String := (List.range n).map zkey

/-- A concrete seen set of exactly `n` keys. -/
def zSet (n : Nat) : Finset String := (zList n).toFinset

/-- A concrete observation that matches the watchlist entry `"robin"`. -/
def robinObs : Obs :=
  { comName := some "European Robin", speciesCode := some "eurrob1",
    sciName := some "Erithacus rubecula", locName := some "Richmond Park",
    obsDt := some "2024-01-01 10:00", lat := some "51.1", lng := some "-0.2" }

/-- The configured site of `birdops.py` line 30. -/
def londonSite : Site := { id := "london", name := "London Site" }

/-- A one-site fetch outcome delivering exactly `robinObs`. -/
def robinFetch : List (Site × Except Unit (List Obs)) :=
  [(londonSite, Except.ok [robinObs])]

theorem listStarts_iff : ∀ (w s : List Char),
    listStarts w s = true ↔ ∃ t, s = w ++ t
  | [], s => by simp [listStarts]
  | a :: w, [] => by simp [listStarts]
  | a :: w, b :: s => by
    simp only [listStarts, Bool.and_eq_true, beq_iff_eq, listStarts_iff w s,
      List.cons_append, List.cons.injEq]
    constructor
    · rintro ⟨rfl, t, rfl⟩
      exact ⟨t, rfl, rfl⟩
    · rintro ⟨t, rfl, rfl⟩
      exact ⟨rfl, t, rfl⟩

theorem listHas_iff : ∀ (s w : List Char),
    listHas w s = true ↔ ∃ p q, s = p ++ w ++ q
  | [], w => by
    simp only [listHas, listStarts_iff]
    constructor
    · rintro ⟨t, ht⟩
      rcases List.append_eq_nil.mp ht.symm with ⟨rfl, rfl⟩
      exact ⟨[], [], rfl⟩
    · rintro ⟨p, q, hpq⟩
      rcases List.append_eq_nil.mp hpq.symm with ⟨hpw, rfl⟩
      rcases List.append_eq_nil.mp hpw with ⟨rfl, rfl⟩
      exact ⟨[], rfl⟩
  | c :: s, w => by
    simp only [listHas, Bool.or_eq_true, listStarts_iff, listHas_iff s w]
    constructor
    · rintro (⟨t, ht⟩ | ⟨p, q, rfl⟩)
      · exact ⟨[], t, by simpa using ht⟩
      · exact ⟨c :: p, q, by simp⟩
    · rintro ⟨p, q, hpq⟩
      cases p with
      | nil => exact Or.inl ⟨q, by simpa using hpq⟩
      | cons c₂ p =>
        rcases List.cons.injEq .. ▸ hpq with ⟨rfl, hrest⟩
        exact Or.inr ⟨p, q, hrest⟩

/-- Python's `w in s` holds iff `w` occurs contiguously inside `s`. -/
theorem pyIn_iff (w s : String) :
    pyIn w s = true ↔ ∃ p q, s.data = p ++ w.data ++ q :=
  listHas_iff s.data w.data

theorem lower_data (s : String) : (lower s).data = s.data.map Char.toLower := rfl

theorem lower_eq_empty_iff (s : String) : lower s = "" ↔ s = "" := by
  rw [String.ext_iff, String.ext_iff, lower_data]
  simp [show ("" : String).data = [] from rfl]

/-- Every entry of the parsed watchlist is a non-empty string: the list
comprehension keeps only entries whose strip is non-empty, and
lowercasing preserves non-emptiness. -/
theorem parseWatchlist_ne_empty (raw : String) :
    ∀ w ∈ parseWatchlist raw, w ≠ "" := by
  intro w hw
  unfold parseWatchlist at hw
  rcases List.mem_map.mp hw with ⟨x, hx, rfl⟩
  have hne : pyStrip x ≠ "" := by
    have := (List.mem_filter.mp hx).2
    simpa using this
  exact fun h => hne ((lower_eq_empty_iff (pyStrip x)).mp h)

/-- Characterisation of the watchlist matcher. -/
theorem match_watchlist_iff (wl : List String) (o : Obs) :
    match_watchlist wl o = true ↔
      wl ≠ [] ∧ ∃ w ∈ wl,
        (∃ p q, (lower (o.comName.getD "")).data = p ++ w.data ++ q) ∨
        w = lower (o.speciesCode.getD "") := by
  cases wl with
  | nil => simp [match_watchlist]
  | cons a l =>
    simp only [match_watchlist, Bool.or_eq_true, List.any_eq_true,
      pyIn_iff, beq_iff_eq, ne_eq, reduceCtorEq, not_false_iff, true_and]
    constructor
    · rintro (⟨w, hw, hA⟩ | ⟨w, hw, hB⟩)
      · exact ⟨w, hw, Or.inl hA⟩
      · exact ⟨w, hw, Or.inr hB⟩
    · rintro ⟨w, hw, hA | hB⟩
      · exact Or.inl ⟨w, hw, hA⟩
      · exact Or.inr ⟨w, hw, hB⟩

/-- C2: `match_watchlist` returns true iff the watchlist is non-empty and
some entry is a substring of the lowercased common name or is exactly the
lowercased species code; in particular an empty watchlist matches
nothing. -/
theorem match_watchlist_correct (wl : List String) (o : Obs) :
    match_watchlist wl o = true ↔
      wl ≠ [] ∧ ∃ w ∈ wl,
        (∃ p q, (lower (o.comName.getD "")).data = p ++ w.data ++ q) ∨
        w = lower (o.speciesCode.getD "") :=
  match_watchlist_iff wl o

/-- C10: an observation whose common-name and species-code fields are
both absent or empty never matches, whatever the raw watchlist string:
the fields normalise to the empty string and every parsed entry is
non-empty. -/
theorem match_watchlist_missing_fields (raw : String) (o : Obs)
    (hn : o.comName = none ∨ o.comName = some "")
    (hc : o.speciesCode = none ∨ o.speciesCode = some "") :
    match_watchlist (parseWatchlist raw) o = false := by
  have hname : o.comName.getD "" = "" := by rcases hn with h | h <;> simp [h]
  have hcode : o.speciesCode.getD "" = "" := by rcases hc with h | h <;> simp [h]
  rw [← Bool.not_eq_true, match_watchlist_iff]
  rintro ⟨-, w, hw, hcase⟩
  have hwne := parseWatchlist_ne_empty raw w hw
  rcases hcase with ⟨p, q, hpq⟩ | rfl
  · rw [hname] at hpq
    have : (lower "").data = [] := rfl
    rw [this] at hpq
    rcases List.append_eq_nil.mp hpq.symm with ⟨hpw, -⟩
    rcases List.append_eq_nil.mp hpw with ⟨-, hwnil⟩
    exact hwne (String.ext hwnil)
  · rw [hcode] at hwne
    exact hwne rfl

/-- Witness for C10 at a concrete raw watchlist and observation. -/
theorem match_watchlist_missing_fields_witness :
    match_watchlist (parseWatchlist "Robin| budgerigar |eurrob1")
      { comName := none, speciesCode := some "", sciName := some "x",
        locName := none, obsDt := some "2024-01-01", lat := some "51.1",
        lng := some "-0.2" } = false :=
  match_watchlist_missing_fields "Robin| budgerigar |eurrob1" _
    (Or.inl rfl) (Or.inr rfl)

/-- Splitting at the first separator is unambiguous when neither left
part contains the separator. -/
theorem sep_split : ∀ (a₁ a₂ b₁ b₂ : List Char), '|' ∉ a₁ → '|' ∉ a₂ →
    a₁ ++ '|' :: b₁ = a₂ ++ '|' :: b₂ → a₁ = a₂ ∧ b₁ = b₂
  | [], [], b₁, b₂, _, _, h => ⟨rfl, (List.cons.injEq .. ▸ h).2⟩
  | [], c :: a₂, b₁, b₂, _, h₂, h => by
    rcases List.cons.injEq .. ▸ h with ⟨rfl, -⟩
    exact absurd (List.mem_cons_self _ _) h₂
  | c :: a₁, [], b₁, b₂, h₁, _, h => by
    rcases List.cons.injEq .. ▸ h with ⟨rfl, -⟩
    exact absurd (List.mem_cons_self _ _) h₁
  | c :: a₁, c₂ :: a₂, b₁, b₂, h₁, h₂, h => by
    rcases List.cons.injEq .. ▸ h with ⟨rfl, hrest⟩
    have h₁' : '|' ∉ a₁ := fun hm => h₁ (List.mem_cons_of_mem _ hm)
    have h₂' : '|' ∉ a₂ := fun hm => h₂ (List.mem_cons_of_mem _ hm)
    rcases sep_split a₁ a₂ b₁ b₂ h₁' h₂' hrest with ⟨rfl, rfl⟩
    exact ⟨rfl, rfl⟩

/-- The character list underlying a composite key. -/
theorem obs_key_data (s : String) (o : Obs) :
    (obs_key s o).data =
      s.data ++ '|' :: ((pyStr o.speciesCode).data ++ '|' ::
        ((pyStr o.obsDt).data ++ '|' :: ((pyStr o.lat).data ++ '|' ::
          (pyStr o.lng).data))) := by
  simp [obs_key, String.data_append]

/-- Counterexample to C3 as stated: two pairs of inputs that differ in a
field yet collide on the key — a missing species code renders exactly
like the string `"None"`, and a `'|'` inside the site id shifts material
between fields. -/
theorem obs_key_collisions :
    (obs_key "london"
        { comName := none, speciesCode := none, sciName := none,
          locName := none, obsDt := some "2024-01-01", lat := some "51.1",
          lng := some "-0.2" } =
      obs_key "london"
        { comName := none, speciesCode := some "None", sciName := none,
          locName := none, obsDt := some "2024-01-01", lat := some "51.1",
          lng := some "-0.2" } ∧
      (none : Option String) ≠ some "None") ∧
    (obs_key "a|b"
        { comName := none, speciesCode := some "c", sciName := none,
          locName := none, obsDt := some "d", lat := some "1",
          lng := some "2" } =
      obs_key "a"
        { comName := none, speciesCode := some "b", sciName := none,
          locName := none, obsDt := some "c|d", lat := some "1",
          lng := some "2" } ∧
      ("a|b" : String) ≠ "a" ∧ (some "c" : Option String) ≠ some "b") := by
  refine ⟨⟨by decide, by decide⟩, ⟨by decide, by decide, by decide⟩⟩

/-- C3 amended: the key builder is a pure function — identical inputs
give identical keys — and whenever no rendered component contains the
separator `'|'`, two keys are equal exactly when the site ids and the
rendered field strings all agree (injectivity up to Python's string
rendering, under pipe-free components). -/
theorem obs_key_inj (s₁ s₂ : String) (o₁ o₂ : Obs)
    (hs₁ : pipeFree s₁) (hs₂ : pipeFree s₂)
    (hc₁ : pipeFree (pyStr o₁.speciesCode))
    (hc₂ : pipeFree (pyStr o₂.speciesCode))
    (hd₁ : pipeFree (pyStr o₁.obsDt)) (hd₂ : pipeFree (pyStr o₂.obsDt))
    (hla₁ : pipeFree (pyStr o₁.lat)) (hla₂ : pipeFree (pyStr o₂.lat)) :
    obs_key s₁ o₁ = obs_key s₂ o₂ ↔
      s₁ = s₂ ∧ pyStr o₁.speciesCode = pyStr o₂.speciesCode ∧
      pyStr o₁.obsDt = pyStr o₂.obsDt ∧ pyStr o₁.lat = pyStr o₂.lat ∧
      pyStr o₁.lng = pyStr o₂.lng := by
  constructor
  · intro h
    have hdata := congrArg String.data h
    rw [obs_key_data, obs_key_data] at hdata
    rcases sep_split _ _ _ _ hs₁ hs₂ hdata with ⟨h₁, hdata⟩
    rcases sep_split _ _ _ _ hc₁ hc₂ hdata with ⟨h₂, hdata⟩
    rcases sep_split _ _ _ _ hd₁ hd₂ hdata with ⟨h₃, hdata⟩
    rcases sep_split _ _ _ _ hla₁ hla₂ hdata with ⟨h₄, h₅⟩
    exact ⟨String.ext h₁, String.ext h₂, String.ext h₃, String.ext h₄,
      String.ext h₅⟩
  · rintro ⟨h₁, h₂, h₃, h₄, h₅⟩
    unfold obs_key
    rw [h₁, h₂, h₃, h₄, h₅]

/-- Witness for the amended C3 at concrete pipe-free inputs. -/
theorem obs_key_inj_witness :
    obs_key "london"
        { comName := some "European Robin", speciesCode := some "eurrob1",
          sciName := none, locName := none, obsDt := some "2024-01-01",
          lat := some "51.1", lng := some "-0.2" } =
      obs_key "oxford"
        { comName := none, speciesCode := some "eurrob1", sciName := none,
          locName := none, obsDt := some "2024-01-01", lat := some "51.1",
          lng := some "-0.2" } ↔
      ("london" : String) = "oxford" ∧
      pyStr (some "eurrob1") = pyStr (some "eurrob1") ∧
      pyStr (some "2024-01-01") = pyStr (some "2024-01-01") ∧
      pyStr (some "51.1") = pyStr (some "51.1") ∧
      pyStr (some "-0.2") = pyStr (some "-0.2") :=
  obs_key_inj "london" "oxford" _ _ (by decide) (by decide) (by decide)
    (by decide) (by decide) (by decide) (by decide) (by decide)

theorem steps_refl (st : RunState) : Steps st st := by
  refine ⟨[], [], [], by simp, by simp, by simp, by simp, by simp, by simp,
    rfl, by simp, rfl⟩

theorem steps_trans {s₁ s₂ s₃ : RunState} (h₁ : Steps s₁ s₂)
    (h₂ : Steps s₂ s₃) : Steps s₁ s₃ := by
  obtain ⟨Δ₁, c₁, r₁, hn₁, hd₁, hf₁, hs₁, ht₁, hc₁, hcl₁, hr₁, hrl₁⟩ := h₁
  obtain ⟨Δ₂, c₂, r₂, hn₂, hd₂, hf₂, hs₂, ht₂, hc₂, hcl₂, hr₂, hrl₂⟩ := h₂
  refine ⟨Δ₁ ++ Δ₂, c₁ ++ c₂, r₁ ++ r₂, ?_, ?_, ?_, ?_, ?_, ?_, ?_, ?_, ?_⟩
  · rw [hn₂, hn₁, List.append_assoc]
  · refine List.Nodup.append hd₁ hd₂ ?_
    intro k hk₁ hk₂
    have : k ∈ s₂.seen := by
      rw [hs₁]
      exact Finset.mem_union_right _ (List.mem_toFinset.mpr hk₁)
    exact hf₂ k hk₂ this
  · intro k hk
    rcases List.mem_append.mp hk with h | h
    · exact hf₁ k h
    · intro hmem
      exact hf₂ k h (hs₁ ▸ Finset.mem_union_left _ hmem)
  · rw [hs₂, hs₁, List.toFinset_append, Finset.union_assoc]
  · rw [ht₂, ht₁, List.length_append, Nat.add_assoc]
  · rw [hc₂, hc₁, List.append_assoc]
  · rw [List.length_append, List.length_append, hcl₁, hcl₂]
  · rw [hr₂, hr₁, List.append_assoc]
  · rw [List.length_append, List.length_append, hrl₁, hrl₂]

theorem steps_notifyObs (site : Site) (o : Obs) (st : RunState) :
    Steps st (notifyObs site st o) := by
  unfold notifyObs
  by_cases h : obs_key site.id o ∈ st.seen
  · rw [if_pos h]
    exact steps_refl st
  · rw [if_neg h]
    refine ⟨[obs_key site.id o], [alertText site.name o], [mkRow site o],
      rfl, by simp, by simpa using h, ?_, rfl, rfl, rfl, rfl, rfl⟩
    simp only [List.toFinset_cons, List.toFinset_nil, insert_emptyc_eq]
    rw [Finset.insert_eq, Finset.union_comm]

theorem steps_foldl {α : Type} (f : RunState → α → RunState)
    (hf : ∀ st a, Steps st (f st a)) :
    ∀ (l : List α) (st : RunState), Steps st (l.foldl f st)
  | [], st => steps_refl st
  | a :: l, st => steps_trans (hf st a) (steps_foldl f hf l (f st a))

theorem steps_processSite (wl : List String)
    (entry : Site × Except Unit (List Obs)) (st : RunState) :
    Steps st (processSite wl st entry) := by
  obtain ⟨site, res⟩ := entry
  cases res with
  | error u => exact steps_refl st
  | ok obs =>
    exact steps_foldl (notifyObs site) (fun st o => steps_notifyObs site o st)
      _ st

theorem steps_runCore (wl : List String)
    (fetched : List (Site × Except Unit (List Obs))) (st : RunState) :
    Steps st (runCore wl fetched st) :=
  steps_foldl (processSite wl) (fun st e => steps_processSite wl e st)
    fetched st

/-- C1: within one run, a key already in the loaded seen set is never
notified, the notified keys are pairwise distinct (a duplicate
observation in one run's fetch results is notified at most once — its
key is marked seen in the same run), the final seen set is exactly the
loaded set plus the notified keys, and the alert counter counts the
notified observations. -/
theorem run_once_dedupe (wl : List String)
    (fetched : List (Site × Except Unit (List Obs))) (seen₀ : Finset String) :
    (∀ k ∈ seen₀, k ∉ (run_once wl fetched seen₀).notified) ∧
    (run_once wl fetched seen₀).notified.Nodup ∧
    (run_once wl fetched seen₀).finalSeen =
      seen₀ ∪ (run_once wl fetched seen₀).notified.toFinset ∧
    (run_once wl fetched seen₀).totalNew =
      (run_once wl fetched seen₀).notified.length := by
  obtain ⟨Δ, c, r, hn, hd, hf, hs, ht, -, -, -, -⟩ :=
    steps_runCore wl fetched (initState seen₀)
  have e₁ : (run_once wl fetched seen₀).notified =
      (runCore wl fetched (initState seen₀)).notified := rfl
  have e₂ : (run_once wl fetched seen₀).finalSeen =
      (runCore wl fetched (initState seen₀)).seen := rfl
  have e₃ : (run_once wl fetched seen₀).totalNew =
      (runCore wl fetched (initState seen₀)).totalNew := rfl
  have hf' : ∀ k ∈ Δ, k ∉ seen₀ := by simpa [initState] using hf
  have hn' : (runCore wl fetched (initState seen₀)).notified = Δ := by
    simpa [initState] using hn
  have hs' : (runCore wl fetched (initState seen₀)).seen =
      seen₀ ∪ Δ.toFinset := by simpa [initState] using hs
  have ht' : (runCore wl fetched (initState seen₀)).totalNew = Δ.length := by
    simpa [initState] using ht
  rw [e₁, e₂, e₃, hn', hs', ht']
  exact ⟨fun k hk hmem => hf' k hmem hk, hd, rfl, rfl⟩

/-- Witness for C1: a key found in the loaded seen set is absent from the
run's notified keys. -/
theorem run_once_dedupe_witness :
    ("x" : String) ∈ ({"x"} : Finset String) ∧
    ("x" : String) ∉ (run_once ["robin"] [] {"x"}).notified :=
  ⟨by decide, (run_once_dedupe ["robin"] [] {"x"}).1 "x" (by decide)⟩

/-- C7: a failed fetch for one site does not affect the run's outcome for
the others — the run over all sites equals the run over just the sites
whose fetch succeeded, so every successful site's matches are still
notified and the alert counter reflects only successful sites. -/
theorem run_once_skips_failed_sites (wl : List String)
    (fetched : List (Site × Except Unit (List Obs))) (seen₀ : Finset String) :
    run_once wl fetched seen₀ = run_once wl (fetched.filter fetchOk) seen₀ := by
  have hcore : ∀ (l : List (Site × Except Unit (List Obs))) (st : RunState),
      runCore wl l st = runCore wl (l.filter fetchOk) st := by
    intro l
    induction l with
    | nil => intro st; rfl
    | cons e l ih =>
      intro st
      obtain ⟨site, res⟩ := e
      cases res with
      | error u =>
        have hdrop : fetchOk (site, Except.error u) = false := rfl
        have hskip : processSite wl st (site, Except.error u) = st := rfl
        simp only [runCore, List.foldl_cons, List.filter_cons, hdrop,
          Bool.false_eq_true, if_false, hskip]
        exact ih st
      | ok obs =>
        have hkeep : fetchOk (site, Except.ok obs) = true := rfl
        simp only [runCore, List.foldl_cons, List.filter_cons, hkeep,
          if_true]
        exact ih (processSite wl st (site, Except.ok obs))
  unfold run_once
  rw [hcore fetched (initState seen₀)]

/-- C8: when the run produced zero new alerts and the no-news flag is on,
the chat sink receives exactly the single fixed no-news message and the
row sink receives nothing. -/
theorem run_once_no_news (wl : List String)
    (fetched : List (Site × Except Unit (List Obs))) (seen₀ : Finset String)
    (hflag : SEND_NO_NEWS_MESSAGE = true)
    (h0 : (run_once wl fetched seen₀).totalNew = 0) :
    (run_once wl fetched seen₀).chat = [NO_NEWS_TEXT] ∧
    (run_once wl fetched seen₀).rows = [] := by
  obtain ⟨Δ, c, r, hn, hd, hf, hs, ht, hc, hcl, hr, hrl⟩ :=
    steps_runCore wl fetched (initState seen₀)
  have e₃ : (run_once wl fetched seen₀).totalNew =
      (runCore wl fetched (initState seen₀)).totalNew := rfl
  rw [e₃, ht] at h0
  simp only [initState, Nat.zero_add] at h0
  have hΔ : Δ = [] := List.length_eq_zero.mp h0
  subst hΔ
  have hcnil : c = [] := List.length_eq_zero.mp (by simpa using hcl)
  have hrnil : r = [] := List.length_eq_zero.mp (by simpa using hrl)
  subst hcnil
  subst hrnil
  have hchat0 : (runCore wl fetched (initState seen₀)).chat = [] := by
    rw [hc]
    simp [initState]
  have hrows0 : (runCore wl fetched (initState seen₀)).rows = [] := by
    rw [hr]
    simp [initState]
  have htot0 : (runCore wl fetched (initState seen₀)).totalNew = 0 := by
    rw [ht]
    simp [initState]
  have echat : (run_once wl fetched seen₀).chat =
      if (runCore wl fetched (initState seen₀)).totalNew == 0 &&
          SEND_NO_NEWS_MESSAGE
        then (runCore wl fetched (initState seen₀)).chat ++ [NO_NEWS_TEXT]
        else (runCore wl fetched (initState seen₀)).chat := rfl
  have erows : (run_once wl fetched seen₀).rows =
      (runCore wl fetched (initState seen₀)).rows := rfl
  rw [echat, erows, htot0, hchat0, hrows0, hflag]
  exact ⟨rfl, rfl⟩

/-- Witness for C8: the empty run posts exactly the no-news message. -/
theorem run_once_no_news_witness :
    (run_once [] [] (∅ : Finset String)).totalNew = 0 ∧
    (run_once [] [] (∅ : Finset String)).chat = [NO_NEWS_TEXT] ∧
    (run_once [] [] (∅ : Finset String)).rows = [] :=
  ⟨rfl, run_once_no_news [] [] ∅ rfl rfl⟩

/-- C9: loading the seen set returns the persisted keys when the backing
store is present and well-formed, and the empty set whenever it is
missing, unreadable or malformed. -/
theorem load_seen_spec :
    (∀ keys : List String, load_seen (.wellFormed keys) = keys.toFinset) ∧
    load_seen .missing = ∅ ∧ load_seen .unreadable = ∅ ∧
    load_seen .malformed = ∅ :=
  ⟨fun _ => rfl, rfl, rfl, rfl⟩

/-- Below the 5000-key cap, `save_seen` writes the whole sorted set. -/
theorem save_seen_of_card_le (S : Finset String) (h : S.card ≤ 5000) :
    save_seen S = Finset.sort (· ≤ ·) S := by
  have hcond : ¬ 5000 < (Finset.sort (· ≤ ·) S).length := by
    rw [Finset.length_sort]
    exact Nat.not_lt.mpr h
  simp only [save_seen]
  rw [if_neg hcond]

/-- C6: saving a seen set of at most 5000 keys and loading it back
returns exactly the same set. -/
theorem load_save_roundtrip (S : Finset String) (h : S.card ≤ 5000) :
    load_seen (.wellFormed (save_seen S)) = S := by
  show (save_seen S).toFinset = S
  rw [save_seen_of_card_le S h]
  exact Finset.sort_toFinset _ _

/-- Witness for C6 at a concrete two-element set. -/
theorem load_save_roundtrip_witness :
    ({"a", "b"} : Finset String).card ≤ 5000 ∧
    load_seen (.wellFormed (save_seen ({"a", "b"} : Finset String))) =
      ({"a", "b"} : Finset String) :=
  ⟨by decide, load_save_roundtrip {"a", "b"} (by decide)⟩

/-- C5: saving a seen set of 6000 keys persists exactly 5000 of them, all
drawn from the set, and the kept keys are the sort-order (lexicographic)
greatest ones: every persisted key exceeds every dropped key. -/
theorem save_seen_truncates (S : Finset String) (h : S.card = 6000) :
    (save_seen S).length = 5000 ∧
    (∀ a ∈ save_seen S, a ∈ S) ∧
    (∀ a ∈ save_seen S, ∀ b ∈ S, b ∉ save_seen S → b < a) := by
  have hlen : (Finset.sort (· ≤ ·) S).length = S.card := Finset.length_sort _
  have hcond : 5000 < (Finset.sort (· ≤ ·) S).length := by
    rw [hlen, h]
    omega
  have hsave : save_seen S = (Finset.sort (· ≤ ·) S).drop
      ((Finset.sort (· ≤ ·) S).length - 5000) := by
    simp only [save_seen]
    rw [if_pos hcond]
  refine ⟨?_, ?_, ?_⟩
  · rw [hsave, List.length_drop, hlen, h]
  · intro a ha
    rw [hsave] at ha
    exact (Finset.mem_sort _).mp (List.mem_of_mem_drop ha)
  · intro a ha b hb hbnot
    rw [hsave] at ha hbnot
    have hbl : b ∈ Finset.sort (· ≤ ·) S := (Finset.mem_sort _).mpr hb
    have hbsplit : b ∈ (Finset.sort (· ≤ ·) S).take
          ((Finset.sort (· ≤ ·) S).length - 5000) ++
        (Finset.sort (· ≤ ·) S).drop
          ((Finset.sort (· ≤ ·) S).length - 5000) := by
      rw [List.take_append_drop]
      exact hbl
    have hbtake : b ∈ (Finset.sort (· ≤ ·) S).take
        ((Finset.sort (· ≤ ·) S).length - 5000) := by
      rcases List.mem_append.mp hbsplit with hmem | hmem
      · exact hmem
      · exact absurd hmem hbnot
    have hpw : List.Pairwise (· < ·)
        ((Finset.sort (· ≤ ·) S).take
            ((Finset.sort (· ≤ ·) S).length - 5000) ++
          (Finset.sort (· ≤ ·) S).drop
            ((Finset.sort (· ≤ ·) S).length - 5000)) := by
      rw [List.take_append_drop]
      exact Finset.sort_sorted_lt S
    exact (List.pairwise_append.mp hpw).2.2 b hbtake a ha

theorem zkey_inj : Function.Injective zkey := by
  intro i j h
  have hlen := congrArg (fun s => s.data.length) h
  simp only [zkey, List.length_replicate] at hlen
  omega

theorem zList_nodup (n : Nat) : (zList n).Nodup :=
  (List.nodup_range n).map zkey_inj

theorem zList_length (n : Nat) : (zList n).length = n := by
  simp [zList]

theorem zSet_card (n : Nat) : (zSet n).card = n := by
  rw [zSet, List.toFinset_card_of_nodup (zList_nodup n), zList_length]

/-- Witness for C5: a concrete 6000-key set persists exactly 5000 keys. -/
theorem save_seen_truncates_witness :
    (zSet 6000).card = 6000 ∧ (save_seen (zSet 6000)).length = 5000 :=
  ⟨zSet_card 6000, (save_seen_truncates (zSet 6000) (zSet_card 6000)).1⟩

theorem steps_seen_mono {s₁ s₂ : RunState} (h : Steps s₁ s₂) :
    s₁.seen ⊆ s₂.seen := by
  obtain ⟨Δ, c, r, -, -, -, hs, -, -, -, -, -⟩ := h
  rw [hs]
  exact Finset.subset_union_left

theorem notifyObs_key_mem (site : Site) (st : RunState) (o : Obs) :
    obs_key site.id o ∈ (notifyObs site st o).seen := by
  unfold notifyObs
  by_cases h : obs_key site.id o ∈ st.seen
  · rw [if_pos h]
    exact h
  · rw [if_neg h]
    exact Finset.mem_insert_self _ _

theorem foldl_key_mem (site : Site) :
    ∀ (os : List Obs) (st : RunState) (o : Obs), o ∈ os →
      obs_key site.id o ∈ ((os.foldl (notifyObs site) st)).seen
  | [], _, o, h => absurd h (List.not_mem_nil o)
  | o' :: os, st, o, h => by
    rcases List.mem_cons.mp h with rfl | h
    · exact steps_seen_mono (steps_foldl (notifyObs site)
        (fun s a => steps_notifyObs site a s) os (notifyObs site st o))
        (notifyObs_key_mem site st o)
    · exact foldl_key_mem site os (notifyObs site st o') o h

theorem processedKeys_mem_seen (wl : List String) :
    ∀ (fetched : List (Site × Except Unit (List Obs))) (st : RunState),
      ∀ k ∈ processedKeys wl fetched, k ∈ (runCore wl fetched st).seen
  | [], _, k, hk => absurd hk (by simp [processedKeys])
  | e :: l, st, k, hk => by
    obtain ⟨site, res⟩ := e
    cases res with
    | error u =>
      have hk' : k ∈ processedKeys wl l := by
        simpa [processedKeys] using hk
      exact processedKeys_mem_seen wl l
        (processSite wl st (site, Except.error u)) k hk'
    | ok obs =>
      have hk' : k ∈ ((obs.filter (fun o => match_watchlist wl o)).take
            50).map (obs_key site.id) ∨ k ∈ processedKeys wl l := by
        have := hk
        simp only [processedKeys, List.flatMap_cons, List.mem_append] at this
        exact this
      rcases hk' with hmem | hmem
      · rcases List.mem_map.mp hmem with ⟨o, ho, rfl⟩
        have h1 : obs_key site.id o ∈
            (processSite wl st (site, Except.ok obs)).seen :=
          foldl_key_mem site _ st o ho
        exact steps_seen_mono
          (steps_runCore wl l (processSite wl st (site, Except.ok obs))) h1
      · exact processedKeys_mem_seen wl l
          (processSite wl st (site, Except.ok obs)) k hmem

theorem foldl_stagnant (site : Site) :
    ∀ (os : List Obs) (st : RunState),
      (∀ o ∈ os, obs_key site.id o ∈ st.seen) →
      os.foldl (notifyObs site) st = st
  | [], _, _ => rfl
  | o :: os, st, h => by
    have h1 : notifyObs site st o = st := by
      unfold notifyObs
      rw [if_pos (h o (List.mem_cons_self o os))]
    show os.foldl (notifyObs site) (notifyObs site st o) = st
    rw [h1]
    exact foldl_stagnant site os st
      (fun o' ho' => h o' (List.mem_cons_of_mem _ ho'))

theorem runCore_stagnant (wl : List String) :
    ∀ (fetched : List (Site × Except Unit (List Obs))) (st : RunState),
      (∀ k ∈ processedKeys wl fetched, k ∈ st.seen) →
      runCore wl fetched st = st
  | [], _, _ => rfl
  | e :: l, st, h => by
    obtain ⟨site, res⟩ := e
    cases res with
    | error u =>
      show runCore wl l (processSite wl st (site, Except.error u)) = st
      have hid : processSite wl st (site, Except.error u) = st := rfl
      rw [hid]
      exact runCore_stagnant wl l st
        (fun k hk => h k (by simpa [processedKeys] using hk))
    | ok obs =>
      have hsite : processSite wl st (site, Except.ok obs) = st := by
        refine foldl_stagnant site _ st ?_
        intro o ho
        refine h _ ?_
        simp only [processedKeys, List.flatMap_cons, List.mem_append]
        exact Or.inl (List.mem_map_of_mem _ ho)
      show runCore wl l (processSite wl st (site, Except.ok obs)) = st
      rw [hsite]
      refine runCore_stagnant wl l st ?_
      intro k hk
      refine h k ?_
      simp only [processedKeys, List.flatMap_cons, List.mem_append]
      exact Or.inr (by simpa [processedKeys] using hk)

/-- C4 amended: when the first run's final seen set fits the 5000-key cap
(so truncation drops nothing), re-running the pipeline on the same
fetched data from the saved-then-loaded seen set produces zero new
notifications. -/
theorem run_twice_no_new (wl : List String)
    (fetched : List (Site × Except Unit (List Obs))) (seen₀ : Finset String)
    (h : (run_once wl fetched seen₀).finalSeen.card ≤ 5000) :
    (run_once wl fetched (load_seen (.wellFormed
        (run_once wl fetched seen₀).savedSeen))).totalNew = 0 := by
  have efin : (run_once wl fetched seen₀).finalSeen =
      (runCore wl fetched (initState seen₀)).seen := rfl
  have esave : (run_once wl fetched seen₀).savedSeen =
      save_seen (runCore wl fetched (initState seen₀)).seen := rfl
  rw [efin] at h
  have hload : load_seen (.wellFormed (run_once wl fetched seen₀).savedSeen) =
      (runCore wl fetched (initState seen₀)).seen := by
    rw [esave]
    show (save_seen _).toFinset = _
    rw [save_seen_of_card_le _ h]
    exact Finset.sort_toFinset _ _
  rw [hload]
  have hstag := runCore_stagnant wl fetched
    (initState (runCore wl fetched (initState seen₀)).seen)
    (fun k hk => processedKeys_mem_seen wl fetched (initState seen₀) k hk)
  show (runCore wl fetched
    (initState (runCore wl fetched (initState seen₀)).seen)).totalNew = 0
  rw [hstag]
  rfl

/-- Witness for the amended C4 at a small concrete run. -/
theorem run_twice_no_new_witness :
    (run_once ["robin"] robinFetch (∅ : Finset String)).finalSeen.card ≤
      5000 ∧
    (run_once ["robin"] robinFetch (load_seen (.wellFormed
        (run_once ["robin"] robinFetch
          (∅ : Finset String)).savedSeen))).totalNew = 0 :=
  ⟨by decide, run_twice_no_new ["robin"] robinFetch ∅ (by decide)⟩

theorem zkey_data (i : Nat) : (zkey i).data = 'z' :: List.replicate i 'z' := by
  simp [zkey, List.replicate_succ]

theorem mem_zSet_iff (s : String) (n : Nat) :
    s ∈ zSet n ↔ ∃ i, i < n ∧ zkey i = s := by
  simp [zSet, zList]

theorem robin_key_not_mem (n : Nat) :
    obs_key londonSite.id robinObs ∉ zSet n := by
  rw [mem_zSet_iff]
  rintro ⟨i, -, hi⟩
  have h := congrArg (fun s => s.data.head?) hi
  simp only [zkey_data, List.head?_cons] at h
  have hl : (obs_key londonSite.id robinObs).data.head? = some 'l' := by
    decide
  rw [hl] at h
  exact absurd h (by decide)

theorem robin_key_le (b : String) (n : Nat) (hb : b ∈ zSet n) :
    obs_key londonSite.id robinObs ≤ b := by
  rw [mem_zSet_iff] at hb
  obtain ⟨i, -, rfl⟩ := hb
  refine le_of_lt ?_
  rw [String.lt_iff_toList_lt]
  have h1 : (obs_key londonSite.id robinObs).toList =
      'l' :: ("ondon|eurrob1|2024-01-01 10:00|51.1|-0.2" : String).data := by
    decide
  have h2 : (zkey i).toList = 'z' :: List.replicate i 'z' := zkey_data i
  rw [h1, h2]
  exact List.Lex.rel (by decide)

theorem runCore_robin (T : Finset String) :
    runCore ["robin"] robinFetch (initState T) =
      notifyObs londonSite (initState T) robinObs := by
  have hlist : ((([robinObs] : List Obs).filter
      (fun o => match_watchlist ["robin"] o)).take 50) = [robinObs] := by
    decide
  show (((([robinObs] : List Obs).filter
      (fun o => match_watchlist ["robin"] o)).take 50).foldl
        (notifyObs londonSite) (initState T)) =
      notifyObs londonSite (initState T) robinObs
  rw [hlist]
  rfl

theorem run1_seen :
    (runCore ["robin"] robinFetch (initState (zSet 5000))).seen =
      insert (obs_key londonSite.id robinObs) (zSet 5000) := by
  rw [runCore_robin]
  simp only [notifyObs, initState]
  rw [if_neg (robin_key_not_mem 5000)]

theorem run1_total :
    (runCore ["robin"] robinFetch (initState (zSet 5000))).totalNew = 1 := by
  rw [runCore_robin]
  simp only [notifyObs, initState]
  rw [if_neg (robin_key_not_mem 5000)]

theorem run_once_savedSeen (wl : List String)
    (fetched : List (Site × Except Unit (List Obs))) (seen₀ : Finset String) :
    (run_once wl fetched seen₀).savedSeen =
      save_seen (runCore wl fetched (initState seen₀)).seen := rfl

theorem run_once_totalNew (wl : List String)
    (fetched : List (Site × Except Unit (List Obs))) (seen₀ : Finset String) :
    (run_once wl fetched seen₀).totalNew =
      (runCore wl fetched (initState seen₀)).totalNew := rfl

theorem run1_saved :
    (run_once ["robin"] robinFetch (zSet 5000)).savedSeen =
      Finset.sort (· ≤ ·) (zSet 5000) := by
  rw [run_once_savedSeen, run1_seen]
  have hnot := robin_key_not_mem 5000
  have hsort : Finset.sort (· ≤ ·)
      (insert (obs_key londonSite.id robinObs) (zSet 5000)) =
      obs_key londonSite.id robinObs :: Finset.sort (· ≤ ·) (zSet 5000) :=
    Finset.sort_insert (· ≤ ·) (fun b hb => robin_key_le b 5000 hb) hnot
  have hlen : (obs_key londonSite.id robinObs ::
      Finset.sort (· ≤ ·) (zSet 5000)).length = 5001 := by
    rw [List.length_cons, Finset.length_sort, zSet_card]
  simp only [save_seen]
  rw [hsort, hlen, if_pos (by omega)]
  norm_num

/-- Counterexample to C4 as stated: from a loaded seen set of 5000 keys,
one run notifies a fresh observation whose key sorts before every loaded
key; the save truncation (`data[-5000:]` of the sorted 5001 keys) evicts
exactly that fresh key, so a second run on the same fetched data,
starting from the saved-then-loaded set, re-notifies it: the second run's
new-alert count is 1, not 0. -/
theorem run_twice_renotifies :
    (run_once ["robin"] robinFetch (load_seen (.wellFormed
        (run_once ["robin"] robinFetch (zSet 5000)).savedSeen))).totalNew
      = 1 := by
  have hload : load_seen (.wellFormed
      (run_once ["robin"] robinFetch (zSet 5000)).savedSeen) = zSet 5000 := by
    rw [run1_saved]
    show (Finset.sort (· ≤ ·) (zSet 5000)).toFinset = zSet 5000
    exact Finset.sort_toFinset _ _
  rw [hload, run_once_totalNew]
  exact run1_total
